import Mathlib

/-!
Shallow embedding of the `ez_paging` repository's two source files:
`src/managed_l4_table/managed_l4_page_table.rs` (the top-level page-table
manager) and `src/managed_pat.rs` (the PAT cache-type resolver).

Physical memory backing the 4 KiB top-level table frames is modelled as a
map from frame start addresses to 512-slot tables of raw entries; the
`Cr3` register is modelled with an explicit write trace so that "exactly
one write" is expressible.  Rust's `panic!` is modelled as `Option.none`.
-/

namespace EzPaging

/-- Modelled from the spec: the external frame token — unique ownership of
one 4 KiB physical frame, exposing its physical start address.  Only the
address is relevant to this embedding. -/
structure Owned4KibFrame where
  addr : Nat
deriving DecidableEq, Repr

/-- Modelled from the spec: the external address translator — an immutable,
copyable value describing how to reach a physical address from running
code.  Its contents are opaque to the managed-table logic, which only
copies it around; one field stands for that configuration data. -/
structure PagingConfig where
  physOffset : Nat
deriving DecidableEq, Repr

/-- One raw 512-slot top-level page table: entry values are opaque words,
copied by value (source: `x86_64::structures::paging::PageTable`). -/
def RawTable := Fin 512 → Nat

instance : DecidableEq RawTable :=
  fun a b => decidable_of_iff (∀ i, a i = b i) funext_iff.symm

/-- Physical memory restricted to the frames this module touches: the
512-slot table stored at each frame start address. -/
def Memory := Nat → RawTable

/-- Source struct `KernelL4Data` (lines 12–15). -/
structure KernelL4Data where
  is_referenced : Bool
deriving DecidableEq, Repr

/-- Source enum `L4Type` (lines 17–21). -/
inductive L4Type where
  | User : L4Type
  | Kernel : KernelL4Data → L4Type
deriving DecidableEq, Repr

namespace L4Type

/-- Source method `L4Type::l4_managed_entry_range` (lines 24–29): the closed
interval of top-level indices this instance manages, as a
`(low, high)` pair of indices. -/
def l4_managed_entry_range : L4Type → Nat × Nat
  | .User => (0, 255)
  | .Kernel _ => (256, 511)

/-- Source method `L4Type::can_create_new_l4_entries` (lines 31–36). -/
def can_create_new_l4_entries : L4Type → Bool
  | .User => true
  | .Kernel ⟨is_referenced⟩ => !is_referenced

end L4Type

/-- Membership in a closed index interval as produced by
`l4_managed_entry_range`. -/
def inRange (r : Nat × Nat) (n : Nat) : Prop := r.1 ≤ n ∧ n ≤ r.2

instance (r : Nat × Nat) (n : Nat) : Decidable (inRange r n) :=
  inferInstanceAs (Decidable (_ ∧ _))

/-- Source struct `ManagedL4PageTable` (lines 39–44). -/
structure ManagedL4PageTable where
  frame : Owned4KibFrame
  _type : L4Type
  config : PagingConfig
deriving DecidableEq, Repr

/-- The all-zero 512-slot table. -/
def zeroTable : RawTable := fun _ => 0

/-- Source function `init_page_table` (lines 48–60): zero-fills the 4 KiB table
stored in `frame` (the translator only chooses the accessible alias of the
same physical bytes, so the effect on physical memory is keyed by the
frame's start address). -/
def init_page_table (frame : Owned4KibFrame) (mem : Memory) : Memory :=
  fun a => if a = frame.addr then zeroTable else mem a

/-- Source method `PagingConfig::new_kernel` (lines 67–76): zero the frame, tag
the result `Kernel { is_referenced: false }`. -/
def PagingConfig.new_kernel (config : PagingConfig) (frame : Owned4KibFrame)
    (mem : Memory) : ManagedL4PageTable × Memory :=
  let mem' := init_page_table frame mem
  ({ frame := frame
     _type := .Kernel ⟨false⟩
     config := config }, mem')

/-- Source method `ManagedL4PageTable::new_user` (lines 84–106).  A `panic!` on a
`User`-tagged receiver is modelled as `none`; a successful call returns
the mutated receiver (its `is_referenced` flag set), the new `User`-tagged
manager, and the memory after zero-filling the new frame and copying the
receiver's managed entry range into it. -/
def ManagedL4PageTable.new_user (self : ManagedL4PageTable)
    (frame : Owned4KibFrame) (mem : Memory) :
    Option (ManagedL4PageTable × ManagedL4PageTable × Memory) :=
  match self._type with
  | .User => none
  | .Kernel _ =>
    let self' : ManagedL4PageTable := { self with _type := .Kernel ⟨true⟩ }
    let mem1 := init_page_table frame mem
    let lower_half : ManagedL4PageTable :=
      { frame := frame, _type := .User, config := self.config }
    let range_to_copy := self'._type.l4_managed_entry_range
    let mem2 : Memory := fun a =>
      if a = frame.addr then
        fun i =>
          if inRange range_to_copy i.val then mem1 self'.frame.addr i
          else mem1 frame.addr i
      else mem1 a
    some (self', lower_half, mem2)

/-- The model of the `Cr3` active-address-space register: its current
value and the trace of all writes performed on it, each a
(frame address, flags) pair. -/
structure Cr3State where
  value : Nat × Nat
  writes : List (Nat × Nat)
deriving DecidableEq, Repr

/-- External hardware interface `Cr3::write`: set the register and
record the write in the trace. -/
def Cr3.write (frameAddr flags : Nat) (s : Cr3State) : Cr3State :=
  { value := (frameAddr, flags), writes := s.writes ++ [(frameAddr, flags)] }

/-- Source method `ManagedL4PageTable::switch_to` (lines 129–131): write this
table's frame address together with the caller's flags to `Cr3`.  The
receiver is taken by shared reference in the source; it is returned
unchanged here to make that explicit. -/
def ManagedL4PageTable.switch_to (self : ManagedL4PageTable) (flags : Nat)
    (s : Cr3State) : ManagedL4PageTable × Cr3State :=
  (self, Cr3.write self.frame.addr flags s)

/-- External enum `x86_64::registers::model_specific::PatMemoryType`. -/
inductive PatMemoryType where
  | Uncacheable
  | WriteCombining
  | WriteThrough
  | WriteProtected
  | WriteBack
  | Uncached
deriving DecidableEq, Repr

/-- Modelled from the spec: `PageSize` (defined elsewhere in the crate) —
the three supported page sizes. -/
inductive PageSize where
  | _4KiB
  | _2MiB
  | _1GiB
deriving DecidableEq, Repr

namespace PageTableFlags

/-- External constant `PageTableFlags::WRITE_THROUGH` (x86_64 crate, bit 3). -/
def WRITE_THROUGH : Nat := 2 ^ 3

/-- External constant `PageTableFlags::NO_CACHE` (x86_64 crate, bit 4). -/
def NO_CACHE : Nat := 2 ^ 4

/-- External constant `PageTableFlags::HUGE_PAGE` (x86_64 crate, bit 7). -/
def HUGE_PAGE : Nat := 2 ^ 7

end PageTableFlags

/-- Model of Rust's `Iterator::position`: the index of the first element
satisfying `p`, or `none`. -/
def position (p : α → Bool) : List α → Option Nat
  | [] => none
  | a :: as => if p a then some 0 else (position p as).map (· + 1)

/-- Source method `ManagedPat::get_page_table_flags` (`managed_pat.rs` lines
159–180).  The PAT MSR contents read by `Pat::read()` are passed
explicitly as the ordered sequence `pat` of programmed memory types; the
result is the flag bitmask, `none` when no PAT slot holds the requested
type. -/
def ManagedPat.get_page_table_flags (pat : List PatMemoryType)
    (memory_type : PatMemoryType) (page_size : PageSize) : Option Nat :=
  match position (fun v => v == memory_type) pat with
  | none => none
  | some pat_msr_index =>
    let flags : Nat := 0
    let flags :=
      if pat_msr_index &&& 0b001 ≠ 0 then flags ||| PageTableFlags.WRITE_THROUGH
      else flags
    let flags :=
      if pat_msr_index &&& 0b010 ≠ 0 then flags ||| PageTableFlags.NO_CACHE
      else flags
    let flags :=
      if pat_msr_index &&& 0b100 ≠ 0 then
        flags |||
          (match page_size with
           | ._1GiB | ._2MiB => PageTableFlags.HUGE_PAGE
           | ._4KiB => PageTableFlags.HUGE_PAGE)
      else flags
    some flags

/-- Spec-side restatement of §4.3's index-decomposition rule, for
comparison with `ManagedPat.get_page_table_flags`: bit 0 of the index
requests write-through, bit 1 requests no-cache, bit 2 requests the
huge/large-page marker. -/
def specFlagsOfIndex (i : Nat) : Nat :=
  (if i &&& 0b001 ≠ 0 then PageTableFlags.WRITE_THROUGH else 0) |||
  (if i &&& 0b010 ≠ 0 then PageTableFlags.NO_CACHE else 0) |||
  (if i &&& 0b100 ≠ 0 then PageTableFlags.HUGE_PAGE else 0)

/-! Concrete sample values used by the witness theorems. -/

/-- A memory whose tables are all zero. -/
def mem0 : Memory := fun _ _ => 0

/-- A memory with distinct nonzero entries at every frame and slot. -/
def memA : Memory := fun a i => a + i.val + 1

/-- A sample kernel frame. -/
def kfr : Owned4KibFrame := ⟨0⟩

/-- A sample, distinct, user frame. -/
def ufr : Owned4KibFrame := ⟨4096⟩

/-- A sample translator configuration. -/
def cfg0 : PagingConfig := ⟨7⟩

/-- A sample unforked kernel-tagged manager. -/
def kmgr : ManagedL4PageTable := ⟨kfr, .Kernel ⟨false⟩, cfg0⟩

/-- A sample user-tagged manager. -/
def umgr : ManagedL4PageTable := ⟨ufr, .User, cfg0⟩

/-! Helper lemmas shared by the claim theorems. -/

/-- Characterisation of a successful `new_user` call: on a `Kernel`-tagged
receiver it returns the receiver with `is_referenced` set, the
`User`-tagged child, and the memory with the child frame zeroed and
indices 256–511 copied from the receiver's table. -/
theorem new_user_of_kernel (self : ManagedL4PageTable) (frame : Owned4KibFrame)
    (mem : Memory) (d : KernelL4Data) (h : self._type = .Kernel d) :
    self.new_user frame mem =
      some ({ self with _type := .Kernel ⟨true⟩ },
            { frame := frame, _type := .User, config := self.config },
            fun a =>
              if a = frame.addr then
                fun i : Fin 512 =>
                  if inRange (256, 511) i.val then
                    init_page_table frame mem self.frame.addr i
                  else init_page_table frame mem frame.addr i
              else init_page_table frame mem a) := by
  unfold ManagedL4PageTable.new_user
  rw [h]
  rfl

/-- A first-match search returns `none` when the sought value is absent. -/
theorem position_eq_none_of_not_mem {mt : PatMemoryType} :
    ∀ pat : List PatMemoryType, mt ∉ pat →
      position (fun v => v == mt) pat = none := by
  intro pat h
  induction pat with
  | nil => rfl
  | cons a as ih =>
    have ha : a ≠ mt := fun hc => h (hc ▸ List.mem_cons_self a as)
    have has : mt ∉ as := fun hc => h (List.mem_cons_of_mem a hc)
    simp [position, beq_iff_eq, ha, ih has]

/-- A first-match search returns the lowest index holding the sought
value. -/
theorem position_eq_some_first {mt : PatMemoryType} :
    ∀ (pat : List PatMemoryType) (i : Nat) (h1 : i < pat.length),
      pat.get ⟨i, h1⟩ = mt →
      (∀ j (hj : j < i), pat.get ⟨j, Nat.lt_trans hj h1⟩ ≠ mt) →
      position (fun v => v == mt) pat = some i := by
  intro pat
  induction pat with
  | nil => intro i h1; exact absurd h1 (Nat.not_lt_zero i)
  | cons a as ih =>
    intro i h1 hget hfirst
    match i with
    | 0 =>
      simp only [List.get] at hget
      simp [position, beq_iff_eq, hget]
    | j + 1 =>
      have ha : a ≠ mt := hfirst 0 (Nat.succ_pos j)
      have hj1 : j < as.length := Nat.lt_of_succ_lt_succ h1
      have hrec := ih j hj1 hget
        (fun k hk => hfirst (k + 1) (Nat.succ_lt_succ hk))
      simp [position, beq_iff_eq, ha, hrec]

/-- The resolver is the first-match search post-composed with the
index-bit decomposition rule. -/
theorem get_flags_eq_map (pat : List PatMemoryType) (mt : PatMemoryType)
    (ps : PageSize) :
    ManagedPat.get_page_table_flags pat mt ps =
      (position (fun v => v == mt) pat).map specFlagsOfIndex := by
  unfold ManagedPat.get_page_table_flags
  cases h : position (fun v => v == mt) pat with
  | none => rfl
  | some i =>
    simp only [Option.map_some']
    congr 1
    unfold specFlagsOfIndex
    cases ps <;> split_ifs <;> decide

/-- An index with bit 2 set decomposes to flags containing the huge-page
marker. -/
theorem specFlagsOfIndex_huge (i : Nat) (h : i &&& 0b100 ≠ 0) :
    specFlagsOfIndex i &&& PageTableFlags.HUGE_PAGE = PageTableFlags.HUGE_PAGE := by
  unfold specFlagsOfIndex
  rw [if_pos h]
  split_ifs <;> decide

/-! Claim theorems. -/

/-- C1: `can_create_new_l4_entries` is true for every `User`-tagged
manager; for a `Kernel`-tagged manager it is true exactly while the
`is_referenced` flag is false, and it is false on the same instance
immediately after one successful fork (`new_user`) and stays false after
any further fork. -/
theorem can_create_entries_correct :
    L4Type.User.can_create_new_l4_entries = true ∧
    (∀ r, (L4Type.Kernel ⟨r⟩).can_create_new_l4_entries = !r) ∧
    (∀ (self : ManagedL4PageTable) (frame : Owned4KibFrame) (mem : Memory)
       (d : KernelL4Data), self._type = .Kernel d →
       ∃ self' child mem',
         self.new_user frame mem = some (self', child, mem') ∧
         self'._type.can_create_new_l4_entries = false ∧
         ∀ (frame2 : Owned4KibFrame) (mem2 : Memory),
           ∃ self'' child2 mem2',
             self'.new_user frame2 mem2 = some (self'', child2, mem2') ∧
             self''._type.can_create_new_l4_entries = false) := by
  refine ⟨rfl, fun r => rfl, ?_⟩
  intro self frame mem d h
  refine ⟨_, _, _, new_user_of_kernel self frame mem d h, rfl, ?_⟩
  intro frame2 mem2
  exact ⟨_, _, _, new_user_of_kernel _ frame2 mem2 ⟨true⟩ rfl, rfl⟩

/-- Witness for C1: a concrete unforked kernel manager forks once and the
flag query on the mutated receiver is false. -/
theorem can_create_entries_correct_witness :
    ∃ self' child mem',
      kmgr.new_user ufr memA = some (self', child, mem') ∧
      self'._type.can_create_new_l4_entries = false := by
  obtain ⟨s', c, m', h1, h2, _⟩ :=
    can_create_entries_correct.2.2 kmgr ufr memA ⟨false⟩ rfl
  exact ⟨s', c, m', h1, h2⟩

/-- C2: on a `Kernel`-tagged manager and a fresh (distinct) frame,
`new_user` sets the receiver's `is_referenced` flag, tags the returned
manager `User` with the new frame, leaves slots 0–255 of the new table
zero, copies slots 256–511 by value from the kernel table, and leaves all
512 entries of the kernel table unmodified. -/
theorem new_user_fork_correct (self : ManagedL4PageTable)
    (frame : Owned4KibFrame) (mem : Memory) (d : KernelL4Data)
    (hk : self._type = .Kernel d) (hfr : frame.addr ≠ self.frame.addr) :
    ∃ self' child mem',
      self.new_user frame mem = some (self', child, mem') ∧
      self'._type = .Kernel ⟨true⟩ ∧
      child._type = .User ∧ child.frame = frame ∧
      (∀ i : Fin 512, 256 ≤ i.val → mem' frame.addr i = mem self.frame.addr i) ∧
      (∀ i : Fin 512, i.val ≤ 255 → mem' frame.addr i = 0) ∧
      (∀ i : Fin 512, mem' self.frame.addr i = mem self.frame.addr i) := by
  refine ⟨_, _, _, new_user_of_kernel self frame mem d hk, rfl, rfl, rfl,
    ?_, ?_, ?_⟩
  · intro i hi
    have h511 : i.val ≤ 511 := Nat.lt_succ_iff.mp i.isLt
    simp [init_page_table, inRange, hi, h511, Ne.symm hfr]
  · intro i hi
    have hni : ¬ 256 ≤ i.val := by omega
    simp [init_page_table, inRange, hni, zeroTable]
  · intro i
    simp [init_page_table, Ne.symm hfr, hfr]

/-- Witness for C2: the concrete fork of the sample kernel manager with a
distinct frame, over a memory with nonzero contents. -/
theorem new_user_fork_correct_witness :
    ∃ self' child mem',
      kmgr.new_user ufr memA = some (self', child, mem') ∧
      self'._type = .Kernel ⟨true⟩ ∧
      child._type = .User ∧ child.frame = ufr ∧
      (∀ i : Fin 512, 256 ≤ i.val → mem' ufr.addr i = memA kmgr.frame.addr i) ∧
      (∀ i : Fin 512, i.val ≤ 255 → mem' ufr.addr i = 0) ∧
      (∀ i : Fin 512, mem' kmgr.frame.addr i = memA kmgr.frame.addr i) :=
  new_user_fork_correct kmgr ufr memA ⟨false⟩ rfl (by decide)

/-- C3: `new_user` on a `User`-tagged manager hits the `panic!` arm before
any mutation: in the embedding it returns `none`, never a usable table. -/
theorem new_user_on_user_aborts (self : ManagedL4PageTable)
    (frame : Owned4KibFrame) (mem : Memory) (h : self._type = .User) :
    self.new_user frame mem = none := by
  unfold ManagedL4PageTable.new_user
  rw [h]

/-- Witness for C3: the concrete `User`-tagged manager aborts the fork. -/
theorem new_user_on_user_aborts_witness :
    umgr.new_user kfr mem0 = none :=
  new_user_on_user_aborts umgr kfr mem0 rfl

/-- C4: `new_kernel` zero-fills the given frame, so all 512 top-level
slots of the fresh kernel table are zero, and it tags the resulting
manager `Kernel` with `is_referenced = false`. -/
theorem new_kernel_correct (config : PagingConfig) (frame : Owned4KibFrame)
    (mem : Memory) :
    (config.new_kernel frame mem).1.frame = frame ∧
    (config.new_kernel frame mem).1._type = .Kernel ⟨false⟩ ∧
    (config.new_kernel frame mem).1.config = config ∧
    ∀ i : Fin 512, (config.new_kernel frame mem).2 frame.addr i = 0 := by
  refine ⟨rfl, rfl, rfl, ?_⟩
  intro i
  simp [PagingConfig.new_kernel, init_page_table, zeroTable]

/-- C5: the managed index range is the closed interval 0–255 for `User`
and 256–511 for every `Kernel` state, and the two ranges never
intersect. -/
theorem l4_managed_entry_range_correct :
    L4Type.User.l4_managed_entry_range = (0, 255) ∧
    (∀ d, (L4Type.Kernel d).l4_managed_entry_range = (256, 511)) ∧
    (∀ d n, inRange L4Type.User.l4_managed_entry_range n →
       ¬ inRange ((L4Type.Kernel d).l4_managed_entry_range) n) := by
  refine ⟨rfl, fun d => rfl, ?_⟩
  intro d n h1 h2
  simp only [L4Type.l4_managed_entry_range, inRange] at h1 h2
  omega

/-- Witness for C5: index 0 lies in the user range and not in the kernel
range. -/
theorem l4_managed_entry_range_correct_witness :
    ¬ inRange ((L4Type.Kernel ⟨false⟩).l4_managed_entry_range) 0 :=
  l4_managed_entry_range_correct.2.2 ⟨false⟩ 0 (by decide)

/-- C9: `switch_to` performs exactly one `Cr3` write, whose value is this
manager's frame address paired with the caller's flags, and returns the
manager unchanged. -/
theorem switch_to_correct (self : ManagedL4PageTable) (flags : Nat)
    (s : Cr3State) :
    (self.switch_to flags s).2.value = (self.frame.addr, flags) ∧
    (self.switch_to flags s).2.writes = s.writes ++ [(self.frame.addr, flags)] ∧
    (self.switch_to flags s).1 = self :=
  ⟨rfl, rfl, rfl⟩

/-- C10: a successful `new_user` leaves the caller's frame token,
translator configuration and `Kernel` tag variant unchanged (only the
`is_referenced` flag flips), and the returned `User` child carries a copy
of the caller's translator configuration. -/
theorem new_user_frame_effect (self : ManagedL4PageTable)
    (frame : Owned4KibFrame) (mem : Memory) (d : KernelL4Data)
    (hk : self._type = .Kernel d) :
    ∃ self' child mem',
      self.new_user frame mem = some (self', child, mem') ∧
      self'.frame = self.frame ∧
      self'.config = self.config ∧
      self'._type = .Kernel ⟨true⟩ ∧
      child.config = self.config :=
  ⟨_, _, _, new_user_of_kernel self frame mem d hk, rfl, rfl, rfl, rfl⟩

/-- Witness for C10: the concrete fork of the sample kernel manager. -/
theorem new_user_frame_effect_witness :
    ∃ self' child mem',
      kmgr.new_user ufr mem0 = some (self', child, mem') ∧
      self'.frame = kmgr.frame ∧
      self'.config = kmgr.config ∧
      self'._type = .Kernel ⟨true⟩ ∧
      child.config = kmgr.config :=
  new_user_frame_effect kmgr ufr mem0 ⟨false⟩ rfl

/-- C6: the resolver scans the programmed memory-type sequence, selects
the first (lowest) index whose type equals the request, and returns
`none` when no entry matches. -/
theorem get_page_table_flags_first_match :
    (∀ (pat : List PatMemoryType) (mt : PatMemoryType) (ps : PageSize),
       mt ∉ pat → ManagedPat.get_page_table_flags pat mt ps = none) ∧
    (∀ (pat : List PatMemoryType) (mt : PatMemoryType) (ps : PageSize)
       (i : Nat) (h1 : i < pat.length),
       pat.get ⟨i, h1⟩ = mt →
       (∀ j (hj : j < i), pat.get ⟨j, Nat.lt_trans hj h1⟩ ≠ mt) →
       ManagedPat.get_page_table_flags pat mt ps = some (specFlagsOfIndex i)) := by
  constructor
  · intro pat mt ps h
    rw [get_flags_eq_map, position_eq_none_of_not_mem pat h]
    rfl
  · intro pat mt ps i h1 hget hfirst
    rw [get_flags_eq_map, position_eq_some_first pat i h1 hget hfirst]
    rfl

/-- Witness for C6: an absent type yields `none`; a type first present at
index 1 resolves there. -/
theorem get_page_table_flags_first_match_witness :
    ManagedPat.get_page_table_flags
      [.WriteBack, .WriteThrough] .Uncached ._4KiB = none ∧
    ManagedPat.get_page_table_flags
      [.WriteBack, .WriteThrough, .WriteThrough] .WriteThrough ._2MiB =
      some (specFlagsOfIndex 1) :=
  ⟨get_page_table_flags_first_match.1 _ _ _ (by decide),
   get_page_table_flags_first_match.2 _ _ _ 1 (by decide) (by decide)
     (by decide)⟩

/-- C7: on a match the resolver returns the bitwise union determined by
the matched index's bits — bit 0 the write-through flag, bit 1 the
no-cache flag, bit 2 the huge-page marker — and in particular with the
register programmed as `WriteBack, WriteThrough, Uncached`, a query for
`WriteThrough` resolves to index 1 and yields the write-through flag
only, that flag sharing no bit with no-cache or huge-page. -/
theorem get_page_table_flags_bits :
    (∀ (pat : List PatMemoryType) (mt : PatMemoryType) (ps : PageSize),
       ManagedPat.get_page_table_flags pat mt ps =
         (position (fun v => v == mt) pat).map specFlagsOfIndex) ∧
    position (fun v => v == PatMemoryType.WriteThrough)
      [PatMemoryType.WriteBack, PatMemoryType.WriteThrough,
       PatMemoryType.Uncached] = some 1 ∧
    (∀ ps, ManagedPat.get_page_table_flags
       [PatMemoryType.WriteBack, PatMemoryType.WriteThrough,
        PatMemoryType.Uncached] PatMemoryType.WriteThrough ps =
       some PageTableFlags.WRITE_THROUGH) ∧
    PageTableFlags.WRITE_THROUGH &&& PageTableFlags.NO_CACHE = 0 ∧
    PageTableFlags.WRITE_THROUGH &&& PageTableFlags.HUGE_PAGE = 0 := by
  refine ⟨get_flags_eq_map, by decide, fun ps => ?_, by decide, by decide⟩
  cases ps <;> decide

/-- C8: when the matched index has bit 2 set the result carries the
huge-page marker bit, and the result is the same for the 4 KiB, 2 MiB and
1 GiB page sizes — the page-size argument never changes the returned
flags. -/
theorem get_page_table_flags_huge_uniform :
    (∀ (pat : List PatMemoryType) (mt : PatMemoryType) (ps ps' : PageSize),
       ManagedPat.get_page_table_flags pat mt ps =
         ManagedPat.get_page_table_flags pat mt ps') ∧
    (∀ (pat : List PatMemoryType) (mt : PatMemoryType) (i : Nat),
       position (fun v => v == mt) pat = some i → i &&& 0b100 ≠ 0 →
       ∀ ps, ∃ f, ManagedPat.get_page_table_flags pat mt ps = some f ∧
         f &&& PageTableFlags.HUGE_PAGE = PageTableFlags.HUGE_PAGE) := by
  constructor
  · intro pat mt ps ps'
    rw [get_flags_eq_map, get_flags_eq_map]
  · intro pat mt i hpos hbit ps
    refine ⟨specFlagsOfIndex i, ?_, specFlagsOfIndex_huge i hbit⟩
    rw [get_flags_eq_map, hpos]
    rfl

/-- Witness for C8: `WriteBack` first appears at index 4 (bit 2 set) in a
concrete register programming, and the huge-page marker is set in the
result. -/
theorem get_page_table_flags_huge_uniform_witness :
    ∃ f, ManagedPat.get_page_table_flags
      [.Uncacheable, .WriteCombining, .WriteThrough, .WriteProtected,
       .WriteBack, .Uncached] .WriteBack ._1GiB = some f ∧
      f &&& PageTableFlags.HUGE_PAGE = PageTableFlags.HUGE_PAGE :=
  get_page_table_flags_huge_uniform.2 _ _ 4 (by decide) (by decide) ._1GiB

end EzPaging
